import Mathlib

set_option maxRecDepth 20000

/-!
Verification of the report-normalization logic of the `pre-prod` analysis
scripts.  The Python sources are shallowly embedded: CPython `float`/`int`
string conversion is modelled by explicit parsers over character lists,
IEEE-754 double values are modelled by `PyFloat` — a finite value carried
as an exact normalized fraction `Frac` (binary rounding of doubles is not
modelled; every concrete value appearing in the claims is decimal), plus
`nan` and signed infinity.  Pandas missing cells are `Option String`
(`none` = NaN cell) and fallible conversions (`Series.astype(float)`)
return `Except`.  `Frac` is used instead of `ℚ` so that every definition
reduces in the kernel; `Frac.toRat` interprets it in `ℚ` for the
semantic statements.
-/

/-- An exact fraction `num / den`.  All values produced by the embedding are
normalized (denominator positive, fraction in lowest terms, `0/1` for zero),
so structural equality on produced values coincides with value equality —
matching pandas elementwise float equality on the modelled inputs. -/
structure Frac where
  num : ℤ
  den : ℕ
deriving DecidableEq, Repr

/-- Build the normalized fraction `n / d` (with `d = 0` mapped to `0/1`;
that case is never produced by the embedded code). -/
def mkFrac (n : ℤ) (d : ℕ) : Frac :=
  if d = 0 then ⟨0, 1⟩
  else
    let g := Int.gcd n (d : ℤ)
    ⟨n / (g : ℤ), d / g⟩

/-- Build a normalized fraction from an integer numerator and denominator. -/
def mkFracI (n d : ℤ) : Frac :=
  if d < 0 then mkFrac (-n) (-d).toNat else mkFrac n d.toNat

namespace Frac

/-- The rational value of a fraction. -/
def toRat (f : Frac) : ℚ := (f.num : ℚ) / (f.den : ℚ)

/-- Exact addition. -/
def add (a b : Frac) : Frac :=
  mkFrac (a.num * (b.den : ℤ) + b.num * (a.den : ℤ)) (a.den * b.den)

/-- Exact multiplication. -/
def mul (a b : Frac) : Frac := mkFrac (a.num * b.num) (a.den * b.den)

/-- Exact division (denominator value assumed nonzero at call sites). -/
def div (a b : Frac) : Frac := mkFracI (a.num * (b.den : ℤ)) ((a.den : ℤ) * b.num)

/-- Strict order test by cross multiplication. -/
def blt (a b : Frac) : Bool := decide (a.num * (b.den : ℤ) < b.num * (a.den : ℤ))

end Frac

/-- IEEE double as used by the scripts: a finite value, NaN, or a signed
infinity. -/
inductive PyFloat where
  | finite (f : Frac)
  | nan
  | inf (neg : Bool)
deriving DecidableEq, Repr

namespace PyFloat

/-- The comparison `x > c` against a finite constant; NaN compares false
(this is the semantics of numpy/pandas elementwise `>`). -/
def gtB (x : PyFloat) (c : Frac) : Bool :=
  match x with
  | .finite f => Frac.blt c f
  | .nan => false
  | .inf neg => !neg

/-- The comparison `x < c` against a finite constant; NaN compares false. -/
def ltB (x : PyFloat) (c : Frac) : Bool :=
  match x with
  | .finite f => Frac.blt f c
  | .nan => false
  | .inf neg => neg

/-- NaN test (pandas `isnull` on a float cell). -/
def isNan : PyFloat → Bool
  | .nan => true
  | _ => false

/-- Finite test (`np.isfinite`). -/
def isFiniteB : PyFloat → Bool
  | .finite _ => true
  | _ => false

/-- IEEE addition on the embedded values. -/
def add : PyFloat → PyFloat → PyFloat
  | .nan, _ => .nan
  | _, .nan => .nan
  | .finite p, .finite q => .finite (p.add q)
  | .inf s, .finite _ => .inf s
  | .finite _, .inf s => .inf s
  | .inf s, .inf t => if s = t then .inf s else .nan

/-- IEEE multiplication on the embedded values. -/
def mul : PyFloat → PyFloat → PyFloat
  | .nan, _ => .nan
  | _, .nan => .nan
  | .finite p, .finite q => .finite (p.mul q)
  | .inf s, .finite q => if q.num = 0 then .nan else .inf (s.xor (decide (q.num < 0)))
  | .finite p, .inf s => if p.num = 0 then .nan else .inf (s.xor (decide (p.num < 0)))
  | .inf s, .inf t => .inf (s.xor t)

/-- IEEE division on the embedded values (`0/0 = NaN`, `x/0 = ±inf`). -/
def div : PyFloat → PyFloat → PyFloat
  | .nan, _ => .nan
  | _, .nan => .nan
  | .finite p, .finite q =>
      if q.num = 0 then (if p.num = 0 then .nan else .inf (decide (p.num < 0)))
      else .finite (p.div q)
  | .inf s, .finite q => .inf (s.xor (decide (q.num < 0)))
  | .finite _, .inf _ => .finite ⟨0, 1⟩
  | .inf _, .inf _ => .nan

end PyFloat

/-! ### Python string helpers

`str.strip`, `str.replace` and the character-class deletion of
`re.sub(r'[£,]', '', s)` are modelled over character lists so that every
definition reduces in the kernel. -/

/-- Python `str.strip()` on a character list: drop whitespace from both ends. -/
def trimChars (l : List Char) : List Char :=
  ((l.dropWhile Char.isWhitespace).reverse.dropWhile Char.isWhitespace).reverse

/-- Python `str.strip()`. -/
def pyStrip (s : String) : String := ⟨trimChars s.toList⟩

/-- Non-overlapping left-to-right replacement, the semantics of Python
`str.replace` for a non-empty pattern.  The fuel argument (instantiated with
the length of the subject) only drives termination. -/
def replaceChars (pat repl : List Char) : ℕ → List Char → List Char
  | 0, l => l
  | _, [] => []
  | fuel + 1, c :: rest =>
      if pat ≠ [] ∧ pat.isPrefixOf (c :: rest) then
        repl ++ replaceChars pat repl fuel ((c :: rest).drop pat.length)
      else
        c :: replaceChars pat repl fuel rest

/-- Python `s.replace(pat, repl)` (for the non-empty patterns the scripts use). -/
def pyReplace (s pat repl : String) : String :=
  ⟨replaceChars pat.toList repl.toList s.toList.length s.toList⟩

/-- `re.sub(r'[£,]', '', s)`: delete every occurrence of the listed characters. -/
def deleteChars (cs : List Char) (s : String) : String :=
  ⟨s.toList.filter (fun c => !cs.contains c)⟩

/-- Pandas `Series.astype(str)` on a cell: a missing cell prints as `"nan"`. -/
def pyStrOfCell : Option String → String
  | none => "nan"
  | some s => s

/-! ### CPython numeric string conversion

`float(s)` accepts optional surrounding whitespace, an optional sign, either
a decimal literal (`digits`, `digits.digits`, `.digits`, with an optional
`e`/`E` exponent) or the case-insensitive words `inf`/`infinity`/`nan`;
anything else raises `ValueError`.  `int(s)` accepts optional whitespace,
an optional sign and a non-empty digit string.  (Underscore digit
separators, accepted by CPython since 3.6, never occur in the data and are
not modelled.) -/

/-- Value of a digit string, most significant first. -/
def digitsToNat (l : List Char) : ℕ :=
  l.foldl (fun a c => 10 * a + (c.toNat - 48)) 0

/-- Split an optional leading sign: returns (isNegative, rest). -/
def splitSign : List Char → Bool × List Char
  | '-' :: r => (true, r)
  | '+' :: r => (false, r)
  | l => (false, l)

/-- Parse the decimal mantissa `digits[.digits]` / `.digits`: returns the
numerator, the power-of-ten denominator exponent and the unconsumed
remainder, or `none` when no digit is present. -/
def parseMantissa (l : List Char) : Option ((ℤ × ℕ) × List Char) :=
  let ip := l.takeWhile Char.isDigit
  let r1 := l.dropWhile Char.isDigit
  match r1 with
  | '.' :: r2 =>
      let fp := r2.takeWhile Char.isDigit
      let r3 := r2.dropWhile Char.isDigit
      if ip.isEmpty && fp.isEmpty then none
      else some (((digitsToNat ip * 10 ^ fp.length + digitsToNat fp : ℤ), fp.length), r3)
  | _ => if ip.isEmpty then none else some (((digitsToNat ip : ℤ), 0), r1)

/-- Parse an optional exponent part that must consume the whole remainder. -/
def parseExponent : List Char → Option ℤ
  | [] => some 0
  | c :: r =>
      if c = 'e' ∨ c = 'E' then
        let (neg, r2) := splitSign r
        let ds := r2.takeWhile Char.isDigit
        let r3 := r2.dropWhile Char.isDigit
        if ds.isEmpty || !r3.isEmpty then none
        else some (if neg then -(digitsToNat ds : ℤ) else (digitsToNat ds : ℤ))
      else none

/-- Assemble the parsed parts into a normalized fraction:
`sign * (num / 10^frac) * 10^e`. -/
def assembleDecimal (neg : Bool) (num : ℤ) (frac : ℕ) (e : ℤ) : Frac :=
  let n := if neg then -num else num
  if 0 ≤ e then mkFrac (n * 10 ^ e.toNat) (10 ^ frac)
  else mkFrac n (10 ^ frac * 10 ^ (-e).toNat)

/-- CPython `float(s)`, returning `none` exactly when `float` raises
`ValueError`. -/
def pyFloat? (s : String) : Option PyFloat :=
  let l := trimChars s.toList
  let (neg, r) := splitSign l
  let low := r.map Char.toLower
  if low = "inf".toList ∨ low = "infinity".toList then some (.inf neg)
  else if low = "nan".toList then some .nan
  else
    match parseMantissa r with
    | none => none
    | some ((num, frac), rest) =>
        match parseExponent rest with
        | none => none
        | some e => some (.finite (assembleDecimal neg num frac e))

/-- CPython `int(s)`, returning `none` exactly when `int` raises
`ValueError`. -/
def pyInt? (s : String) : Option ℤ :=
  let l := trimChars s.toList
  let (neg, r) := splitSign l
  if r.isEmpty || r.any (fun c => !c.isDigit) then none
  else some (if neg then -(digitsToNat r : ℤ) else (digitsToNat r : ℤ))

/-! ### src/analyze-best-sellers.py -/

namespace BestSellers

/-- `parse_currency` of `analyze-best-sellers.py`: strip, delete `£` and `,`
(`re.sub(r'[£,]', '', ...)`), `float(...)` with `except: return 0.0`. -/
def parse_currency (value : String) : PyFloat :=
  if value = "" ∨ pyStrip value = "" then .finite ⟨0, 1⟩
  else
    match pyFloat? (deleteChars ['£', ','] (pyStrip value)) with
    | some f => f
    | none => .finite ⟨0, 1⟩

/-- `parse_number` of `analyze-best-sellers.py`: strip, delete `,`,
`int(...)` with `except: return 0`. -/
def parse_number (value : String) : ℤ :=
  if value = "" ∨ pyStrip value = "" then 0
  else
    match pyInt? (deleteChars [','] (pyStrip value)) with
    | some n => n
    | none => 0

/-- One raw CSV row as consumed by the row loop (the column values the loop
reads, as raw text; `row.get(..., '0' / '£0')` defaults are applied by the
caller of this structure when a column is missing, which never happens for
the fixed report layout). -/
structure RawRow where
  parent_asin : String
  child_asin : String
  sku : String
  title : String
  units_ordered : String
  units_ordered_b2b : String
  sales : String
  sales_b2b : String
  sessions : String
  sessions_b2b : String
deriving DecidableEq, Repr

/-- One entry of the `products` list built by the loop. -/
structure Product where
  parent_asin : String
  child_asin : String
  sku : String
  title : String
  units_ordered : ℤ
  sales_value : PyFloat
  sessions : ℤ
  conversion_rate : Frac
deriving DecidableEq, Repr

/-- Body of the CSV row loop: parse the metrics, then skip the row when the
stripped SKU or the stripped child ASIN is empty (`if not sku or not
child_asin: continue`), otherwise emit the product record. -/
def rowProduct (row : RawRow) : Option Product :=
  let sku := pyStrip row.sku
  let child := pyStrip row.child_asin
  let total_units := parse_number row.units_ordered + parse_number row.units_ordered_b2b
  let total_sales := (parse_currency row.sales).add (parse_currency row.sales_b2b)
  let total_sessions := parse_number row.sessions + parse_number row.sessions_b2b
  if sku = "" ∨ child = "" then none
  else
    some
      { parent_asin := pyStrip row.parent_asin
        child_asin := child
        sku := sku
        title := pyStrip row.title
        units_ordered := total_units
        sales_value := total_sales
        sessions := total_sessions
        conversion_rate :=
          if 0 < total_sessions then
            Frac.mul (Frac.div ⟨total_units, 1⟩ ⟨total_sessions, 1⟩) ⟨100, 1⟩
          else ⟨0, 1⟩ }

/-- The `products` list accumulated over all raw rows (the subsequent sort
by sales value permutes but never adds or removes records and is not
modelled). -/
def products (rows : List RawRow) : List Product :=
  rows.filterMap rowProduct

end BestSellers

/-! ### src/weekly-sales-comparison.py -/

namespace WeeklySales

/-- `parse_currency` of `weekly-sales-comparison.py`: a missing cell
(`pd.isna`) or `''` maps to `0.0`; otherwise the mojibake pound sign `"Â£"`
and commas are removed by `str.replace`, the result stripped and passed to
`float(...)` with `except ValueError: return 0.0`. -/
def parse_currency (value : Option String) : PyFloat :=
  match value with
  | none => .finite ⟨0, 1⟩
  | some s =>
      if s = "" then .finite ⟨0, 1⟩
      else
        match pyFloat? (pyStrip (pyReplace (pyReplace s "Â£" "") "," "")) with
        | some f => f
        | none => .finite ⟨0, 1⟩

/-- `parse_percentage` of `weekly-sales-comparison.py`: a missing cell or
`''` maps to `0.0`; otherwise `%` is removed, the result stripped and passed
to `float(...)` with `except ValueError: return 0.0`. -/
def parse_percentage (value : Option String) : PyFloat :=
  match value with
  | none => .finite ⟨0, 1⟩
  | some s =>
      if s = "" then .finite ⟨0, 1⟩
      else
        match pyFloat? (pyStrip (pyReplace s "%" "")) with
        | some f => f
        | none => .finite ⟨0, 1⟩

end WeeklySales

/-! ### src/analyze_business_report.py -/

namespace BusinessReport

/-- `pd.to_numeric(..., errors='coerce')` on one cell: parse failures
degrade to NaN. -/
def to_numeric_coerce (s : String) : PyFloat :=
  match pyFloat? s with
  | some f => f
  | none => .nan

/-- One cell of `clean_percentage_columns`:
`astype(str).str.replace('%', '').replace('nan', np.nan)` then
`pd.to_numeric(..., errors='coerce')`. -/
def clean_percentage_cell (v : Option String) : PyFloat :=
  let s := pyReplace (pyStrOfCell v) "%" ""
  if s = "nan" then .nan else to_numeric_coerce s

/-- One cell of `clean_currency_columns`:
`astype(str).str.replace('£', '').str.replace(',', '').replace('nan', np.nan)`
then `pd.to_numeric(..., errors='coerce')`. -/
def clean_currency_cell (v : Option String) : PyFloat :=
  let s := pyReplace (pyReplace (pyStrOfCell v) "£" "") "," ""
  if s = "nan" then .nan else to_numeric_coerce s

/-- One cell of `clean_numeric_columns`: `pd.to_numeric(..., errors='coerce')`
directly on the column (a missing cell stays NaN). -/
def clean_numeric_cell (v : Option String) : PyFloat :=
  match v with
  | none => .nan
  | some s => to_numeric_coerce s

/-- The normalized numeric fields of one row that `calculate_derived_metrics`
reads. -/
structure Row where
  sessions_total : PyFloat
  units_ordered : PyFloat
  sales_total : PyFloat
  buy_box_percentage : PyFloat
deriving DecidableEq, Repr

/-- `df['conversion_rate'] = np.where(df['sessions_total'] > 0,
(df['units_ordered'] / df['sessions_total']) * 100, 0)`.  `np.where`
evaluates both branches elementwise and selects by the guard, so the cell
value is the guarded expression. -/
def conversion_rate (r : Row) : PyFloat :=
  if r.sessions_total.gtB ⟨0, 1⟩ then
    (r.units_ordered.div r.sessions_total).mul (.finite ⟨100, 1⟩)
  else .finite ⟨0, 1⟩

/-- `df['avg_order_value'] = np.where(df['units_ordered'] > 0,
df['sales_total'] / df['units_ordered'], 0)`. -/
def avg_order_value (r : Row) : PyFloat :=
  if r.units_ordered.gtB ⟨0, 1⟩ then r.sales_total.div r.units_ordered
  else .finite ⟨0, 1⟩

/-- `df['revenue_per_session'] = np.where(df['sessions_total'] > 0,
df['sales_total'] / df['sessions_total'], 0)`. -/
def revenue_per_session (r : Row) : PyFloat :=
  if r.sessions_total.gtB ⟨0, 1⟩ then r.sales_total.div r.sessions_total
  else .finite ⟨0, 1⟩

/-- One row after `calculate_derived_metrics`: the numeric columns that the
quality checks of `identify_data_quality_issues` read (`buy_box_win_rate`
duplicates `buy_box_percentage` and the quantile-based flag columns are
boolean, never null, and read by no check; text columns are likewise never
null for parsed CSV rows and do not affect any check). -/
structure QRow where
  sessions_total : PyFloat
  units_ordered : PyFloat
  sales_total : PyFloat
  buy_box_percentage : PyFloat
  conversion_rate : PyFloat
  avg_order_value : PyFloat
  revenue_per_session : PyFloat
deriving DecidableEq, Repr

/-- `calculate_derived_metrics` on one row: keep the normalized fields and
add the three derived columns. -/
def calcQRow (r : Row) : QRow :=
  { sessions_total := r.sessions_total
    units_ordered := r.units_ordered
    sales_total := r.sales_total
    buy_box_percentage := r.buy_box_percentage
    conversion_rate := conversion_rate r
    avg_order_value := avg_order_value r
    revenue_per_session := revenue_per_session r }

/-- `calculate_derived_metrics` over the whole frame. -/
def calculate_derived_metrics (rows : List Row) : List QRow :=
  rows.map calcQRow

/-- The issue strings appended by `identify_data_quality_issues`. -/
inductive QualityIssue where
  | missingValues (ncols : ℕ)
  | duplicateRows (n : ℕ)
  | buyBoxOver100
  | conversionOver100
  | negativeValues (col : String)
deriving DecidableEq, Repr

/-- Duplicate-issue recognizer. -/
def QualityIssue.isDuplicate : QualityIssue → Bool
  | .duplicateRows _ => true
  | _ => false

/-- The columns inspected by `df.isnull()` in the model. -/
def qColumns : List (QRow → PyFloat) :=
  [QRow.sessions_total, QRow.units_ordered, QRow.sales_total,
   QRow.buy_box_percentage, QRow.conversion_rate, QRow.avg_order_value,
   QRow.revenue_per_session]

/-- Number of columns containing at least one null
(`missing_counts[missing_counts > 0].count()`). -/
def missingColsCount (rows : List QRow) : ℕ :=
  qColumns.countP (fun f => rows.any (fun r => (f r).isNan))

/-- `df.duplicated().sum()`: the number of rows equal to an earlier row
(pandas treats NaN cells as equal for this check, as does `Frac`-level
structural equality). -/
def dupCountAux (seen : List QRow) : List QRow → ℕ
  | [] => 0
  | r :: rest => (if r ∈ seen then 1 else 0) + dupCountAux (r :: seen) rest

/-- `df.duplicated().sum()` over the whole frame. -/
def dupCount (rows : List QRow) : ℕ := dupCountAux [] rows

/-- `identify_data_quality_issues(df)`: the issue list, in append order —
missing values, duplicates, impossible buy-box / conversion percentages
(`(col > 100).any()`), and negative values in `sessions_total`,
`units_ordered`, `sales_total` (`(col < 0).any()`). -/
def identify_data_quality_issues (rows : List QRow) : List QualityIssue :=
  (if 0 < missingColsCount rows then [.missingValues (missingColsCount rows)] else [])
  ++ (if 0 < dupCount rows then [.duplicateRows (dupCount rows)] else [])
  ++ (if rows.any (fun r => r.buy_box_percentage.gtB ⟨100, 1⟩) then [.buyBoxOver100] else [])
  ++ (if rows.any (fun r => r.conversion_rate.gtB ⟨100, 1⟩) then [.conversionOver100] else [])
  ++ (if rows.any (fun r => r.sessions_total.ltB ⟨0, 1⟩) then [.negativeValues "sessions_total"] else [])
  ++ (if rows.any (fun r => r.units_ordered.ltB ⟨0, 1⟩) then [.negativeValues "units_ordered"] else [])
  ++ (if rows.any (fun r => r.sales_total.ltB ⟨0, 1⟩) then [.negativeValues "sales_total"] else [])

/-- The pipeline step `issues = identify_data_quality_issues(df)` of `main`:
the frame flows through unchanged next to the issue list. -/
def qualityCheckStep (rows : List QRow) : List QRow × List QualityIssue :=
  (rows, identify_data_quality_issues rows)

end BusinessReport

/-! ### src/analyze_new_report.py -/

namespace NewReport

/-- The normalized numeric fields of one row that `calculate_metrics`
reads. -/
structure Row where
  sessions_total : PyFloat
  units_ordered : PyFloat
  sales_total : PyFloat
deriving DecidableEq, Repr

/-- `df['conversion_rate'] = np.where(df['sessions_total'] > 0,
(df['units_ordered'] / df['sessions_total']) * 100, 0)` of
`calculate_metrics`. -/
def conversion_rate (r : Row) : PyFloat :=
  if r.sessions_total.gtB ⟨0, 1⟩ then
    (r.units_ordered.div r.sessions_total).mul (.finite ⟨100, 1⟩)
  else .finite ⟨0, 1⟩

/-- `df['avg_order_value'] = np.where(df['units_ordered'] > 0,
df['sales_total'] / df['units_ordered'], 0)` of `calculate_metrics`. -/
def avg_order_value (r : Row) : PyFloat :=
  if r.units_ordered.gtB ⟨0, 1⟩ then r.sales_total.div r.units_ordered
  else .finite ⟨0, 1⟩

/-- `df['revenue_per_session'] = np.where(df['sessions_total'] > 0,
df['sales_total'] / df['sessions_total'], 0)` of `calculate_metrics`. -/
def revenue_per_session (r : Row) : PyFloat :=
  if r.sessions_total.gtB ⟨0, 1⟩ then r.sales_total.div r.sessions_total
  else .finite ⟨0, 1⟩

end NewReport

/-! ### src/enhanced_traffic_conversion_analysis.py -/

namespace EnhancedTraffic

/-- `Series.astype(float)` on one string cell: raises `ValueError` on
non-parseable text. -/
def astypeFloatCell (s : String) : Except String PyFloat :=
  match pyFloat? s with
  | some f => .ok f
  | none => .error "ValueError"

/-- `df['Sessions – Total'].astype(str).str.replace(',', '').astype(float)`
on one cell (a missing cell prints as `"nan"`, which `float` accepts). -/
def clean_sessions_cell (v : Option String) : Except String PyFloat :=
  astypeFloatCell (pyReplace (pyStrOfCell v) "," "")

/-- `df['Units ordered'].astype(float)` on one cell. -/
def clean_units_cell (v : Option String) : Except String PyFloat :=
  match v with
  | none => .ok .nan
  | some s => astypeFloatCell s

/-- `df['Ordered Product Sales'].str.replace('£', '').str.replace(',', '')
.astype(float)` on one cell (`.str` operations pass a missing cell through
as NaN). -/
def clean_sales_cell (v : Option String) : Except String PyFloat :=
  match v with
  | none => .ok .nan
  | some s => astypeFloatCell (pyReplace (pyReplace s "£" "") "," "")

/-- The numeric-cleaning block of `load_and_clean_data` on one row: the
first cell whose conversion raises aborts the whole load (the exception
propagates out of the function). -/
def clean_row (sessions units sales : Option String) :
    Except String (PyFloat × PyFloat × PyFloat) := do
  let s ← clean_sessions_cell sessions
  let u ← clean_units_cell units
  let v ← clean_sales_cell sales
  return (s, u, v)

end EnhancedTraffic


/-! ### Concrete rows used by the witness and counterexample theorems -/

/-- A raw best-sellers CSV row with the given SKU and child ASIN and
well-formed metric cells. -/
def mkBSRow (sku asin : String) : BestSellers.RawRow :=
  ⟨"P1", asin, sku, "Widget", "1", "0", "£5.00", "£0.00", "10", "0"⟩

/-- Ten raw rows: two lack an SKU (rows 3 and 5) and one further row has an
SKU but lacks a child ASIN (row 7). -/
def tenRawRows : List BestSellers.RawRow :=
  [mkBSRow "S1" "C1", mkBSRow "S2" "C2", mkBSRow "" "C3", mkBSRow "S4" "C4",
   mkBSRow "" "C5", mkBSRow "S6" "C6", mkBSRow "S7" "", mkBSRow "S8" "C8",
   mkBSRow "S9" "C9", mkBSRow "S10" "C10"]

/-- A quality-check row whose buy-box percentage and conversion rate are both
the impossible value 150. -/
def overRangeRow : BusinessReport.QRow :=
  ⟨.finite ⟨10, 1⟩, .finite ⟨5, 1⟩, .finite ⟨50, 1⟩, .finite ⟨150, 1⟩,
   .finite ⟨150, 1⟩, .finite ⟨10, 1⟩, .finite ⟨5, 1⟩⟩

/-! ### Helper lemmas on `Frac` and the issue lists -/

theorem Frac.den_mkFrac_ne_zero (n : ℤ) (d : ℕ) : (mkFrac n d).den ≠ 0 := by
  unfold mkFrac
  split
  · simp
  · rename_i hd
    have hg : Int.gcd n (d : ℤ) ≠ 0 := by
      simp [Int.gcd_eq_zero_iff, hd]
    have hdvd : Int.gcd n (d : ℤ) ∣ d := by
      have := Int.gcd_dvd_right (a := n) (b := (d : ℤ))
      exact_mod_cast this
    have hpos : 0 < d / Int.gcd n (d : ℤ) :=
      Nat.div_pos (Nat.le_of_dvd (Nat.pos_of_ne_zero hd) hdvd) (Nat.pos_of_ne_zero hg)
    simpa using Nat.pos_iff_ne_zero.mp hpos

theorem Frac.den_mkFracI_ne_zero (n d : ℤ) : (mkFracI n d).den ≠ 0 := by
  unfold mkFracI
  split <;> exact Frac.den_mkFrac_ne_zero _ _

theorem Frac.toRat_mkFrac (n : ℤ) (d : ℕ) (hd : d ≠ 0) :
    (mkFrac n d).toRat = (n : ℚ) / (d : ℚ) := by
  unfold mkFrac
  rw [if_neg hd]
  set g0 : ℕ := Int.gcd n (d : ℤ) with hg0def
  have hg : g0 ≠ 0 := by simp [hg0def, Int.gcd_eq_zero_iff, hd]
  have h1 : ((g0 : ℤ)) ∣ n := hg0def ▸ Int.gcd_dvd_left
  have h2 : g0 ∣ d := by
    have : ((g0 : ℤ)) ∣ (d : ℤ) := hg0def ▸ Int.gcd_dvd_right
    exact_mod_cast this
  rcases h1 with ⟨a, ha⟩
  rcases h2 with ⟨b, hb⟩
  have hna : n / (g0 : ℤ) = a := by
    rw [ha, Int.mul_ediv_cancel_left _ (by exact_mod_cast hg)]
  have hdb : d / g0 = b := by
    rw [hb, Nat.mul_div_cancel_left _ (Nat.pos_of_ne_zero hg)]
  simp only [Frac.toRat, hna, hdb]
  have hbq : b ≠ 0 := by
    rintro rfl
    exact hd (by simpa using hb)
  have hb0 : ((b : ℕ) : ℚ) ≠ 0 := Nat.cast_ne_zero.mpr hbq
  have hd0 : ((d : ℕ) : ℚ) ≠ 0 := Nat.cast_ne_zero.mpr hd
  rw [div_eq_div_iff hb0 hd0]
  have hnq : (n : ℚ) = (g0 : ℚ) * (a : ℚ) := by exact_mod_cast congrArg (fun z : ℤ => (z : ℚ)) ha
  have hdq : (d : ℚ) = (g0 : ℚ) * (b : ℚ) := by exact_mod_cast congrArg (fun m : ℕ => (m : ℚ)) hb
  rw [hnq, hdq]
  ring

theorem Frac.toRat_mkFracI (n d : ℤ) (hd : d ≠ 0) :
    (mkFracI n d).toRat = (n : ℚ) / (d : ℚ) := by
  unfold mkFracI
  split
  · rename_i hneg
    have h2 : (-d).toNat ≠ 0 := by omega
    rw [Frac.toRat_mkFrac _ _ h2]
    have h1 : (((-d).toNat : ℕ) : ℚ) = -(d : ℚ) := by
      have := Int.toNat_of_nonneg (a := -d) (by omega)
      exact_mod_cast congrArg (fun z : ℤ => (z : ℚ)) this
    rw [h1]
    push_cast
    rw [div_neg, neg_div, neg_neg]
  · rename_i hneg
    have h2 : d.toNat ≠ 0 := by omega
    rw [Frac.toRat_mkFrac _ _ h2]
    have h1 : ((d.toNat : ℕ) : ℚ) = (d : ℚ) := by
      have := Int.toNat_of_nonneg (a := d) (by omega)
      exact_mod_cast congrArg (fun z : ℤ => (z : ℚ)) this
    rw [h1]

theorem Frac.toRat_den_pos (a : Frac) (ha : a.den ≠ 0) : (0 : ℚ) < (a.den : ℚ) := by
  exact_mod_cast Nat.pos_of_ne_zero ha

theorem Frac.toRat_mul (a b : Frac) (ha : a.den ≠ 0) (hb : b.den ≠ 0) :
    (a.mul b).toRat = a.toRat * b.toRat := by
  unfold Frac.mul
  rw [Frac.toRat_mkFrac _ _ (Nat.mul_ne_zero ha hb)]
  unfold Frac.toRat
  push_cast
  field_simp

theorem Frac.toRat_div (a b : Frac) (ha : a.den ≠ 0) (hb : b.den ≠ 0) :
    (a.div b).toRat = a.toRat / b.toRat := by
  unfold Frac.div
  by_cases hbn : b.num = 0
  · have hzero : ((a.den : ℤ) * b.num) = 0 := by rw [hbn, mul_zero]
    rw [hzero]
    have hb0 : b.toRat = 0 := by simp [Frac.toRat, hbn]
    rw [hb0, div_zero]
    unfold mkFracI
    rw [if_neg (by omega)]
    simp only [Int.toNat_zero]
    unfold mkFrac
    simp [Frac.toRat]
  · rw [Frac.toRat_mkFracI _ _ (mul_ne_zero (by exact_mod_cast ha) hbn)]
    unfold Frac.toRat
    have ha0 : ((a.den : ℕ) : ℚ) ≠ 0 := Nat.cast_ne_zero.mpr ha
    have hb0 : ((b.den : ℕ) : ℚ) ≠ 0 := Nat.cast_ne_zero.mpr hb
    have hbn0 : ((b.num : ℤ) : ℚ) ≠ 0 := Int.cast_ne_zero.mpr hbn
    push_cast
    field_simp

theorem Frac.blt_iff_toRat (a b : Frac) (ha : a.den ≠ 0) (hb : b.den ≠ 0) :
    Frac.blt a b = true ↔ a.toRat < b.toRat := by
  unfold Frac.blt Frac.toRat
  rw [decide_eq_true_eq, div_lt_div_iff₀ (Frac.toRat_den_pos a ha) (Frac.toRat_den_pos b hb)]
  constructor
  · intro h
    exact_mod_cast h
  · intro h
    exact_mod_cast h

theorem Frac.toRat_nonneg_of_num (a : Frac) (h : 0 ≤ a.num) : 0 ≤ a.toRat := by
  unfold Frac.toRat
  apply div_nonneg
  · exact_mod_cast h
  · exact_mod_cast Nat.zero_le a.den

theorem Frac.toRat_pos_of_num (a : Frac) (ha : a.den ≠ 0) (h : 0 < a.num) : 0 < a.toRat := by
  unfold Frac.toRat
  apply div_pos
  · exact_mod_cast h
  · exact Frac.toRat_den_pos a ha

theorem Frac.toRat_eq_zero_of_num (a : Frac) (h : a.num = 0) : a.toRat = 0 := by
  simp [Frac.toRat, h]

theorem PyFloat.gtB_zero_finite (s : Frac) :
    PyFloat.gtB (.finite s) ⟨0, 1⟩ = decide (0 < s.num) := by
  simp [PyFloat.gtB, Frac.blt]

theorem countP_ite_singleton {α : Type} (p : α → Bool) (c : Prop) [Decidable c] (x : α) :
    List.countP p (if c then [x] else []) = if c then (if p x then 1 else 0) else 0 := by
  split <;> simp [List.countP_cons, List.countP_nil]

theorem filterMap_length_sub_countP {α β : Type} (f : α → Option β) (p : α → Bool)
    (h : ∀ a, f a = none ↔ p a = true) (l : List α) :
    (l.filterMap f).length = l.length - l.countP p := by
  induction l with
  | nil => rfl
  | cons a l ih =>
    have hle : l.countP p ≤ l.length := List.countP_le_length p
    rcases hfa : f a with _ | b
    · have hpa : p a = true := (h a).mp hfa
      simp [List.filterMap_cons, hfa, List.countP_cons, hpa, ih]
    · have hpa : p a ≠ true := fun hp => by simp [(h a).mpr hp] at hfa
      simp only [List.filterMap_cons, hfa, List.countP_cons, if_neg hpa, ih,
        List.length_cons]
      omega

theorem BusinessReport.dupCountAux_eq_zero :
    ∀ (l seen : List BusinessReport.QRow), BusinessReport.dupCountAux seen l = 0 →
      l.Nodup ∧ ∀ x ∈ l, x ∉ seen := by
  intro l
  induction l with
  | nil => exact fun seen _ => ⟨List.nodup_nil, by simp⟩
  | cons r rest ih =>
    intro seen h
    unfold BusinessReport.dupCountAux at h
    by_cases hmem : r ∈ seen
    · simp [hmem] at h
    · simp only [hmem, if_false, Nat.zero_add] at h
      obtain ⟨hnd, hnotin⟩ := ih (r :: seen) h
      refine ⟨List.nodup_cons.mpr ⟨?_, hnd⟩, ?_⟩
      · intro hr
        exact (hnotin r hr) (List.mem_cons_self r seen)
      · intro x hx
        rcases List.mem_cons.mp hx with rfl | hx'
        · exact hmem
        · intro hxs
          exact (hnotin x hx') (List.mem_cons.mpr (Or.inr hxs))

theorem BusinessReport.dupCount_pos_of_repeat
    (l₁ l₂ l₃ : List BusinessReport.QRow) (r : BusinessReport.QRow) :
    0 < BusinessReport.dupCount (l₁ ++ (r :: l₂) ++ (r :: l₃)) := by
  by_contra h
  have h0 : BusinessReport.dupCount (l₁ ++ (r :: l₂) ++ (r :: l₃)) = 0 := by omega
  have hnd := (BusinessReport.dupCountAux_eq_zero _ [] h0).1
  have hcnt : 2 ≤ (l₁ ++ (r :: l₂) ++ (r :: l₃)).count r := by
    simp [List.count_append, List.count_cons_self]
    omega
  have := List.nodup_iff_count_le_one.mp hnd r
  omega

/-! ### Claim theorems -/

/-- C3 counterexample: `parse_currency` of `weekly-sales-comparison.py` is
one of the two cited implementations, and it maps the literal string
`"£1,234.56"` (with a plain pound sign) to `0.0`, not `1234.56`: it strips
the mojibake sequence `"Â£"`, not `"£"`, so `float` fails and the default
is returned. -/
theorem weekly_parse_currency_plain_pound_counterexample :
    WeeklySales.parse_currency (some "£1,234.56") = .finite ⟨0, 1⟩ ∧
    (⟨0, 1⟩ : Frac).toRat ≠ 123456 / 100 := by
  refine ⟨by decide, by norm_num [Frac.toRat]⟩

/-- C3 (amended): `parse_currency` of `analyze-best-sellers.py` maps
`"£1,234.56"` to `1234.56`, `""` to `0.0` and `"£-50.00"` to `-50.0`; the
`weekly-sales-comparison.py` variant behaves the same way on its mojibake
encoding of the pound sign (`"Â£1,234.56"`, `""`, `"Â£-50.00"`). -/
theorem parse_currency_reference_values :
    (∃ f, BestSellers.parse_currency "£1,234.56" = .finite f ∧ f.toRat = 123456 / 100) ∧
    BestSellers.parse_currency "" = .finite ⟨0, 1⟩ ∧
    (∃ f, BestSellers.parse_currency "£-50.00" = .finite f ∧ f.toRat = -50) ∧
    (∃ f, WeeklySales.parse_currency (some "Â£1,234.56") = .finite f ∧ f.toRat = 123456 / 100) ∧
    WeeklySales.parse_currency (some "") = .finite ⟨0, 1⟩ ∧
    (∃ f, WeeklySales.parse_currency (some "Â£-50.00") = .finite f ∧ f.toRat = -50) := by
  refine ⟨⟨⟨30864, 25⟩, by decide, by norm_num [Frac.toRat]⟩,
    by decide,
    ⟨⟨-50, 1⟩, by decide, by norm_num [Frac.toRat]⟩,
    ⟨⟨30864, 25⟩, by decide, by norm_num [Frac.toRat]⟩,
    by decide,
    ⟨⟨-50, 1⟩, by decide, by norm_num [Frac.toRat]⟩⟩

/-- C4 counterexample: `parse_percentage` of `weekly-sales-comparison.py`
(one of the two cited implementations) maps the empty string — and a
missing cell — to plain `0.0`, not to a missing marker distinct from `0.0`. -/
theorem weekly_parse_percentage_empty_counterexample :
    WeeklySales.parse_percentage (some "") = .finite ⟨0, 1⟩ ∧
    WeeklySales.parse_percentage none = .finite ⟨0, 1⟩ ∧
    (⟨0, 1⟩ : Frac).toRat = 0 := by
  refine ⟨by decide, by decide, by norm_num [Frac.toRat]⟩

/-- C4 (amended): both implementations map `"37.5%"` to `37.5`; the
pandas-based `clean_percentage_columns` of `analyze_business_report.py` maps
empty/`"nan"`-equivalent cells to the NaN missing marker, which is distinct
from `0.0`, while `parse_percentage` of `weekly-sales-comparison.py` maps
them to `0.0`. -/
theorem parse_percentage_missing_semantics :
    (∃ f, WeeklySales.parse_percentage (some "37.5%") = .finite f ∧ f.toRat = 375 / 10) ∧
    (∃ f, BusinessReport.clean_percentage_cell (some "37.5%") = .finite f ∧ f.toRat = 375 / 10) ∧
    BusinessReport.clean_percentage_cell none = .nan ∧
    BusinessReport.clean_percentage_cell (some "") = .nan ∧
    ((PyFloat.nan : PyFloat) ≠ .finite ⟨0, 1⟩) ∧
    WeeklySales.parse_percentage (some "") = .finite ⟨0, 1⟩ := by
  refine ⟨⟨⟨75, 2⟩, by decide, by norm_num [Frac.toRat]⟩,
    ⟨⟨75, 2⟩, by decide, by norm_num [Frac.toRat]⟩,
    by decide, by decide, by decide, by decide⟩

/-- C5 counterexample: `parse_number` of `analyze-best-sellers.py` does not
truncate `"12.7"` toward zero — `int("12.7")` raises `ValueError`, so the
`except` branch returns the default `0`, not `12`. -/
theorem parse_number_decimal_counterexample :
    BestSellers.parse_number "12.7" ≠ 12 := by decide

/-- C5 (amended): `parse_number` strips thousands separators, maps the
empty or whitespace-only string to `0`, parses signed integers, and maps
non-integer numeric text such as `"12.7"` to the default `0` (the `int`
conversion raises and the `except` branch returns `0`; no truncation
toward zero happens). -/
theorem parse_number_behaviour :
    BestSellers.parse_number "1,234" = 1234 ∧
    BestSellers.parse_number "" = 0 ∧
    BestSellers.parse_number "   " = 0 ∧
    BestSellers.parse_number "-42" = -42 ∧
    BestSellers.parse_number "12.7" = 0 := by decide

/-- C9 counterexample: the row loop of `analyze-best-sellers.py` drops a row
whenever the stripped SKU **or** the stripped child ASIN is empty
(`if not sku or not child_asin: continue`).  For ten raw rows of which
exactly two lack an SKU, but one further row lacks only its child ASIN, the
output has 7 records, not `10 - 2 = 8` as the claim requires. -/
theorem missing_identifier_count_counterexample :
    tenRawRows.length = 10 ∧
    tenRawRows.countP (fun r => decide (pyStrip r.sku = "")) = 2 ∧
    (BestSellers.products tenRawRows).length = 7 ∧
    (BestSellers.products tenRawRows).length ≠
      tenRawRows.length - tenRawRows.countP (fun r => decide (pyStrip r.sku = "")) := by
  decide

/-- C9 (amended): a raw row is dropped exactly when its stripped SKU or its
stripped child ASIN is empty, so the number of output records equals the
number of raw rows minus the number of rows lacking the SKU or the child
ASIN (the skipped rows are not separately counted by the script). -/
theorem products_length_eq_sub_missing_identifiers (rows : List BestSellers.RawRow) :
    (BestSellers.products rows).length =
      rows.length -
        rows.countP (fun r => decide (pyStrip r.sku = "" ∨ pyStrip r.child_asin = "")) := by
  apply filterMap_length_sub_countP
  intro a
  unfold BestSellers.rowProduct
  by_cases hc : pyStrip a.sku = "" ∨ pyStrip a.child_asin = ""
  · simp [hc]
  · simp [hc]

/-- C10: after numeric coercion a missing `sessions_total` cell is NaN
(`clean_numeric_cell none = nan`), the guard `NaN > 0` of `np.where` is
false, so `conversion_rate` and `revenue_per_session` are exactly `0`; a
missing `units_ordered` likewise makes `avg_order_value` exactly `0`; and
each derived metric of a missing-traffic row coincides with that of a
genuine zero-session (zero-unit) row. -/
theorem missing_traffic_indistinguishable_from_zero (s u v b : PyFloat) :
    BusinessReport.clean_numeric_cell none = .nan ∧
    BusinessReport.conversion_rate ⟨.nan, u, v, b⟩ = .finite ⟨0, 1⟩ ∧
    BusinessReport.revenue_per_session ⟨.nan, u, v, b⟩ = .finite ⟨0, 1⟩ ∧
    BusinessReport.avg_order_value ⟨s, .nan, v, b⟩ = .finite ⟨0, 1⟩ ∧
    BusinessReport.conversion_rate ⟨.nan, u, v, b⟩ =
      BusinessReport.conversion_rate ⟨.finite ⟨0, 1⟩, u, v, b⟩ ∧
    BusinessReport.revenue_per_session ⟨.nan, u, v, b⟩ =
      BusinessReport.revenue_per_session ⟨.finite ⟨0, 1⟩, u, v, b⟩ ∧
    BusinessReport.avg_order_value ⟨s, .nan, v, b⟩ =
      BusinessReport.avg_order_value ⟨s, .finite ⟨0, 1⟩, v, b⟩ := by
  refine ⟨rfl, ?_, ?_, ?_, ?_, ?_, ?_⟩ <;>
    simp [BusinessReport.conversion_rate, BusinessReport.revenue_per_session,
      BusinessReport.avg_order_value, PyFloat.gtB, Frac.blt]

/-- C8: for a frame containing the same normalized row at two positions,
`identify_data_quality_issues` appends exactly one duplicate issue (the
single string `"{n} duplicate rows found"`), and the quality-check step
leaves the frame unchanged, so both copies remain in the output. -/
theorem duplicate_rows_flagged_once_and_retained
    (l₁ l₂ l₃ : List BusinessReport.QRow) (r : BusinessReport.QRow) :
    (BusinessReport.qualityCheckStep (l₁ ++ (r :: l₂) ++ (r :: l₃))).1 =
      l₁ ++ (r :: l₂) ++ (r :: l₃) ∧
    ((BusinessReport.qualityCheckStep (l₁ ++ (r :: l₂) ++ (r :: l₃))).2.countP
        BusinessReport.QualityIssue.isDuplicate) = 1 := by
  refine ⟨rfl, ?_⟩
  have hpos : 0 < BusinessReport.dupCount (l₁ ++ r :: (l₂ ++ r :: l₃)) := by
    simpa using BusinessReport.dupCount_pos_of_repeat l₁ l₂ l₃ r
  simp [BusinessReport.qualityCheckStep, BusinessReport.identify_data_quality_issues,
    List.countP_append, countP_ite_singleton, hpos, Nat.pos_iff_ne_zero.mp hpos,
    BusinessReport.QualityIssue.isDuplicate]

/-- Buy-box out-of-range recognizer. -/
def BusinessReport.QualityIssue.isBuyBoxOutOfRange : BusinessReport.QualityIssue → Bool
  | .buyBoxOver100 => true
  | _ => false

/-- Conversion out-of-range recognizer. -/
def BusinessReport.QualityIssue.isConversionOutOfRange : BusinessReport.QualityIssue → Bool
  | .conversionOver100 => true
  | _ => false

/-- C7: the quality-check step leaves every row untouched (values are never
clamped or altered and processing completes), and when the frame contains a
row whose `buy_box_percentage` exceeds 100 — e.g. the value 150 — exactly
one buy-box `OutOfRange` issue is emitted; likewise a `conversion_rate`
above 100 yields exactly one conversion `OutOfRange` issue. -/
theorem out_of_range_retained_and_flagged_once
    (rows : List BusinessReport.QRow) (r : BusinessReport.QRow) (hmem : r ∈ rows) :
    (BusinessReport.qualityCheckStep rows).1 = rows ∧
    (r.buy_box_percentage.gtB ⟨100, 1⟩ = true →
      ((BusinessReport.qualityCheckStep rows).2.countP
          BusinessReport.QualityIssue.isBuyBoxOutOfRange) = 1) ∧
    (r.conversion_rate.gtB ⟨100, 1⟩ = true →
      ((BusinessReport.qualityCheckStep rows).2.countP
          BusinessReport.QualityIssue.isConversionOutOfRange) = 1) := by
  refine ⟨rfl, ?_, ?_⟩
  · intro h
    have hany : rows.any (fun q => q.buy_box_percentage.gtB ⟨100, 1⟩) = true :=
      List.any_eq_true.mpr ⟨r, hmem, h⟩
    simp [BusinessReport.qualityCheckStep, BusinessReport.identify_data_quality_issues,
      List.countP_append, countP_ite_singleton, hany,
      BusinessReport.QualityIssue.isBuyBoxOutOfRange]
  · intro h
    have hany : rows.any (fun q => q.conversion_rate.gtB ⟨100, 1⟩) = true :=
      List.any_eq_true.mpr ⟨r, hmem, h⟩
    simp [BusinessReport.qualityCheckStep, BusinessReport.identify_data_quality_issues,
      List.countP_append, countP_ite_singleton, hany,
      BusinessReport.QualityIssue.isConversionOutOfRange]

/-- Witness for C7: a single-row frame whose buy-box percentage and
conversion rate are both 150 is retained unchanged and yields exactly one
issue of each out-of-range kind. -/
theorem out_of_range_witness :
    (BusinessReport.qualityCheckStep [overRangeRow]).1 = [overRangeRow] ∧
    ((BusinessReport.qualityCheckStep [overRangeRow]).2.countP
        BusinessReport.QualityIssue.isBuyBoxOutOfRange) = 1 ∧
    ((BusinessReport.qualityCheckStep [overRangeRow]).2.countP
        BusinessReport.QualityIssue.isConversionOutOfRange) = 1 := by
  have h := out_of_range_retained_and_flagged_once [overRangeRow] overRangeRow
    (List.mem_singleton.mpr rfl)
  exact ⟨h.1, h.2.1 (by decide), h.2.2 (by decide)⟩

/-- C1: for rows with finite fields (a fraction with nonzero denominator;
the numerator sign is the value sign), both `calculate_derived_metrics` of
`analyze_business_report.py` and `calculate_metrics` of
`analyze_new_report.py` use strict denominator-greater-than-zero guards:
`conversion_rate` equals `(units / sessions) * 100` when `sessions > 0` and
is exactly `0` whenever `sessions = 0` regardless of `units`;
`avg_order_value` is exactly `0` whenever `units = 0` regardless of
`sales_total`; `revenue_per_session` is exactly `0` whenever `sessions = 0`;
and `conversion_rate` is non-negative whenever `sessions ≥ 0` and
`units ≥ 0`. -/
theorem derived_metric_guards (s u v b : Frac)
    (hs : s.den ≠ 0) (hu : u.den ≠ 0) (_hv : v.den ≠ 0) :
    (0 < s.num →
      ∃ c, BusinessReport.conversion_rate ⟨.finite s, .finite u, .finite v, .finite b⟩ =
          .finite c ∧ c.toRat = u.toRat / s.toRat * 100) ∧
    (s.num = 0 →
      BusinessReport.conversion_rate ⟨.finite s, .finite u, .finite v, .finite b⟩ =
        .finite ⟨0, 1⟩) ∧
    (u.num = 0 →
      BusinessReport.avg_order_value ⟨.finite s, .finite u, .finite v, .finite b⟩ =
        .finite ⟨0, 1⟩) ∧
    (s.num = 0 →
      BusinessReport.revenue_per_session ⟨.finite s, .finite u, .finite v, .finite b⟩ =
        .finite ⟨0, 1⟩) ∧
    (0 ≤ s.num → 0 ≤ u.num →
      ∃ c, BusinessReport.conversion_rate ⟨.finite s, .finite u, .finite v, .finite b⟩ =
          .finite c ∧ 0 ≤ c.toRat) ∧
    (0 < s.num →
      ∃ c, NewReport.conversion_rate ⟨.finite s, .finite u, .finite v⟩ = .finite c ∧
        c.toRat = u.toRat / s.toRat * 100) ∧
    (s.num = 0 →
      NewReport.conversion_rate ⟨.finite s, .finite u, .finite v⟩ = .finite ⟨0, 1⟩) ∧
    (u.num = 0 →
      NewReport.avg_order_value ⟨.finite s, .finite u, .finite v⟩ = .finite ⟨0, 1⟩) ∧
    (s.num = 0 →
      NewReport.revenue_per_session ⟨.finite s, .finite u, .finite v⟩ = .finite ⟨0, 1⟩) := by
  have h100 : (⟨100, 1⟩ : Frac).toRat = 100 := by norm_num [Frac.toRat]
  have hdivden : (u.div s).den ≠ 0 := by
    unfold Frac.div
    exact Frac.den_mkFracI_ne_zero _ _
  have hconv : ∀ hs0 : 0 < s.num,
      ((PyFloat.finite u).div (.finite s)).mul (.finite ⟨100, 1⟩) =
        .finite ((u.div s).mul ⟨100, 1⟩) := by
    intro hs0
    have hne : s.num ≠ 0 := by omega
    simp [PyFloat.div, PyFloat.mul, hne]
  have hguard : ∀ t : Frac, PyFloat.gtB (.finite t) ⟨0, 1⟩ = decide (0 < t.num) :=
    PyFloat.gtB_zero_finite
  have hval : ∀ hs0 : 0 < s.num, ((u.div s).mul ⟨100, 1⟩).toRat = u.toRat / s.toRat * 100 := by
    intro hs0
    rw [Frac.toRat_mul _ _ hdivden (by decide), h100,
      Frac.toRat_div u s hu hs]
  refine ⟨?_, ?_, ?_, ?_, ?_, ?_, ?_, ?_, ?_⟩
  · intro hs0
    refine ⟨(u.div s).mul ⟨100, 1⟩, ?_, hval hs0⟩
    simp only [BusinessReport.conversion_rate, hguard, decide_eq_true hs0, if_true]
    exact hconv hs0
  · intro hs0
    simp [BusinessReport.conversion_rate, hguard, hs0]
  · intro hu0
    simp [BusinessReport.avg_order_value, hguard, hu0]
  · intro hs0
    simp [BusinessReport.revenue_per_session, hguard, hs0]
  · intro hs0 hu0
    rcases eq_or_lt_of_le hs0 with heq | hpos
    · refine ⟨⟨0, 1⟩, ?_, by norm_num [Frac.toRat]⟩
      simp [BusinessReport.conversion_rate, hguard, heq.symm]
    · refine ⟨(u.div s).mul ⟨100, 1⟩, ?_, ?_⟩
      · simp only [BusinessReport.conversion_rate, hguard, decide_eq_true hpos, if_true]
        exact hconv hpos
      · rw [hval hpos]
        have h1 : 0 ≤ u.toRat := Frac.toRat_nonneg_of_num u hu0
        have h2 : 0 < s.toRat := Frac.toRat_pos_of_num s hs hpos
        positivity
  · intro hs0
    refine ⟨(u.div s).mul ⟨100, 1⟩, ?_, hval hs0⟩
    simp only [NewReport.conversion_rate, hguard, decide_eq_true hs0, if_true]
    exact hconv hs0
  · intro hs0
    simp [NewReport.conversion_rate, hguard, hs0]
  · intro hu0
    simp [NewReport.avg_order_value, hguard, hu0]
  · intro hs0
    simp [NewReport.revenue_per_session, hguard, hs0]

/-- Witness for C1: the round-trip row `sessions = 200`, `units = 50`,
`sales = 1000` satisfies the hypotheses, and the positive-sessions branch
applies. -/
theorem derived_metric_guards_witness :
    ((⟨200, 1⟩ : Frac).den ≠ 0 ∧ (0 : ℤ) < (⟨200, 1⟩ : Frac).num) ∧
    (∃ c, BusinessReport.conversion_rate
        ⟨.finite ⟨200, 1⟩, .finite ⟨50, 1⟩, .finite ⟨1000, 1⟩, .finite ⟨90, 1⟩⟩ =
        .finite c ∧ c.toRat = (⟨50, 1⟩ : Frac).toRat / (⟨200, 1⟩ : Frac).toRat * 100) :=
  ⟨⟨by decide, by decide⟩,
    (derived_metric_guards ⟨200, 1⟩ ⟨50, 1⟩ ⟨1000, 1⟩ ⟨90, 1⟩
        (by decide) (by decide) (by decide)).1 (by decide)⟩

/-- C6 counterexample: the guards only test the denominator, so a row whose
`units_ordered` cell was unparseable (NaN after coercion) but whose
`sessions_total` is positive gets `conversion_rate = NaN / sessions * 100 =
NaN` — a non-finite derived value, contradicting the claim. -/
theorem derived_metric_nan_counterexample :
    BusinessReport.clean_numeric_cell (some "N/A") = .nan ∧
    BusinessReport.conversion_rate
      ⟨BusinessReport.clean_numeric_cell (some "5"),
       BusinessReport.clean_numeric_cell (some "N/A"),
       BusinessReport.clean_currency_cell (some "£10.00"),
       BusinessReport.clean_percentage_cell (some "50%")⟩ = .nan ∧
    PyFloat.isFiniteB .nan = false := by decide

/-- C6 (amended): the three derived metrics are finite for every row whose
normalized fields are finite — the strict denominator guards prevent any
division by zero, so no infinity arises — but a missing (NaN) numerator
with a positive denominator propagates NaN into the derived field:
`conversion_rate` and `revenue_per_session` are NaN when `sessions > 0` and
the numerator cell is missing, and likewise `avg_order_value` when
`units > 0` and `sales_total` is missing. -/
theorem derived_metrics_finite_or_nan (s u v b : Frac) :
    (∃ c, BusinessReport.conversion_rate ⟨.finite s, .finite u, .finite v, .finite b⟩ =
        .finite c) ∧
    (∃ c, BusinessReport.avg_order_value ⟨.finite s, .finite u, .finite v, .finite b⟩ =
        .finite c) ∧
    (∃ c, BusinessReport.revenue_per_session ⟨.finite s, .finite u, .finite v, .finite b⟩ =
        .finite c) ∧
    (0 < s.num →
      BusinessReport.conversion_rate ⟨.finite s, .nan, .finite v, .finite b⟩ = .nan) ∧
    (0 < u.num →
      BusinessReport.avg_order_value ⟨.finite s, .finite u, .nan, .finite b⟩ = .nan) ∧
    (0 < s.num →
      BusinessReport.revenue_per_session ⟨.finite s, .finite u, .nan, .finite b⟩ = .nan) := by
  have hguard := PyFloat.gtB_zero_finite
  refine ⟨?_, ?_, ?_, ?_, ?_, ?_⟩
  · by_cases hs0 : 0 < s.num
    · have hne : s.num ≠ 0 := by omega
      refine ⟨(u.div s).mul ⟨100, 1⟩, ?_⟩
      simp [BusinessReport.conversion_rate, hguard, hs0, PyFloat.div, PyFloat.mul, hne]
    · exact ⟨⟨0, 1⟩, by simp [BusinessReport.conversion_rate, hguard, hs0]⟩
  · by_cases hu0 : 0 < u.num
    · have hne : u.num ≠ 0 := by omega
      refine ⟨v.div u, ?_⟩
      simp [BusinessReport.avg_order_value, hguard, hu0, PyFloat.div, hne]
    · exact ⟨⟨0, 1⟩, by simp [BusinessReport.avg_order_value, hguard, hu0]⟩
  · by_cases hs0 : 0 < s.num
    · have hne : s.num ≠ 0 := by omega
      refine ⟨v.div s, ?_⟩
      simp [BusinessReport.revenue_per_session, hguard, hs0, PyFloat.div, hne]
    · exact ⟨⟨0, 1⟩, by simp [BusinessReport.revenue_per_session, hguard, hs0]⟩
  · intro hs0
    simp [BusinessReport.conversion_rate, hguard, hs0, PyFloat.div, PyFloat.mul]
  · intro hu0
    simp [BusinessReport.avg_order_value, hguard, hu0, PyFloat.div]
  · intro hs0
    simp [BusinessReport.revenue_per_session, hguard, hs0, PyFloat.div]

/-- Witness for C6 (amended): a concrete all-finite row has a finite
conversion rate, and a concrete missing-units row with five sessions
propagates NaN. -/
theorem derived_metrics_finite_or_nan_witness :
    (∃ c, BusinessReport.conversion_rate
        ⟨.finite ⟨5, 1⟩, .finite ⟨2, 1⟩, .finite ⟨10, 1⟩, .finite ⟨50, 1⟩⟩ = .finite c) ∧
    ((0 : ℤ) < (⟨5, 1⟩ : Frac).num ∧
      BusinessReport.conversion_rate
        ⟨.finite ⟨5, 1⟩, .nan, .finite ⟨10, 1⟩, .finite ⟨50, 1⟩⟩ = .nan) :=
  ⟨(derived_metrics_finite_or_nan ⟨5, 1⟩ ⟨2, 1⟩ ⟨10, 1⟩ ⟨50, 1⟩).1,
    by decide,
    (derived_metrics_finite_or_nan ⟨5, 1⟩ ⟨2, 1⟩ ⟨10, 1⟩ ⟨50, 1⟩).2.2.2.1 (by decide)⟩

/-- C2 counterexample: the numeric cleaning of `load_and_clean_data` in
`enhanced_traffic_conversion_analysis.py` — one of the two cited cell-level
parsers — uses `Series.astype(float)`, which raises `ValueError` on a
non-parseable remainder such as `"abc"` instead of degrading to a default,
so a malformed cell aborts that normalization. -/
theorem enhanced_astype_raises_counterexample :
    EnhancedTraffic.clean_units_cell (some "abc") = .error "ValueError" ∧
    EnhancedTraffic.clean_row (some "1,000") (some "abc") (some "£500.00") =
      .error "ValueError" := by
  constructor <;> rfl

/-- C2 (amended): the dedicated `try/except` parsers never fail — for every
input, `parse_currency` and `parse_percentage` either return the
successfully parsed float of the cleaned text or the default `0.0`, and
`parse_number` likewise returns the parsed integer or the default `0` —
but the `astype(float)`-based cleaning of
`enhanced_traffic_conversion_analysis.py` raises `ValueError` on a
non-parseable cell and aborts the load. -/
theorem cell_parsers_degrade_to_default :
    (∀ s : String, BestSellers.parse_currency s = .finite ⟨0, 1⟩ ∨
      ∃ f, pyFloat? (deleteChars ['£', ','] (pyStrip s)) = some f ∧
        BestSellers.parse_currency s = f) ∧
    (∀ s : String, BestSellers.parse_number s = 0 ∨
      ∃ n, pyInt? (deleteChars [','] (pyStrip s)) = some n ∧
        BestSellers.parse_number s = n) ∧
    (∀ v : Option String, WeeklySales.parse_percentage v = .finite ⟨0, 1⟩ ∨
      ∃ s f, v = some s ∧ pyFloat? (pyStrip (pyReplace s "%" "")) = some f ∧
        WeeklySales.parse_percentage v = f) ∧
    (∀ v : Option String, WeeklySales.parse_currency v = .finite ⟨0, 1⟩ ∨
      ∃ s f, v = some s ∧
        pyFloat? (pyStrip (pyReplace (pyReplace s "Â£" "") "," "")) = some f ∧
        WeeklySales.parse_currency v = f) ∧
    BestSellers.parse_currency "12abc" = .finite ⟨0, 1⟩ ∧
    BestSellers.parse_number "x1!" = 0 ∧
    WeeklySales.parse_percentage (some "37abc%") = .finite ⟨0, 1⟩ ∧
    EnhancedTraffic.clean_units_cell (some "12abc") = .error "ValueError" := by
  refine ⟨?_, ?_, ?_, ?_, by decide, by decide, by decide, by rfl⟩
  · intro s
    unfold BestSellers.parse_currency
    split
    · exact Or.inl rfl
    · rcases h : pyFloat? (deleteChars ['£', ','] (pyStrip s)) with _ | f
      · exact Or.inl (by simp [h])
      · exact Or.inr ⟨f, rfl, by simp [h]⟩
  · intro s
    unfold BestSellers.parse_number
    split
    · exact Or.inl rfl
    · rcases h : pyInt? (deleteChars [','] (pyStrip s)) with _ | n
      · exact Or.inl (by simp [h])
      · exact Or.inr ⟨n, rfl, by simp [h]⟩
  · intro v
    rcases v with _ | s
    · exact Or.inl rfl
    · by_cases hempty : s = ""
      · exact Or.inl (by simp [WeeklySales.parse_percentage, hempty])
      · rcases h : pyFloat? (pyStrip (pyReplace s "%" "")) with _ | f
        · exact Or.inl (by simp [WeeklySales.parse_percentage, hempty, h])
        · exact Or.inr ⟨s, f, rfl, h,
            by simp [WeeklySales.parse_percentage, hempty, h]⟩
  · intro v
    rcases v with _ | s
    · exact Or.inl rfl
    · by_cases hempty : s = ""
      · exact Or.inl (by simp [WeeklySales.parse_currency, hempty])
      · rcases h : pyFloat? (pyStrip (pyReplace (pyReplace s "Â£" "") "," "")) with _ | f
        · exact Or.inl (by simp [WeeklySales.parse_currency, hempty, h])
        · exact Or.inr ⟨s, f, rfl, h,
            by simp [WeeklySales.parse_currency, hempty, h]⟩
